import Mathlib

/-!
Verification development for the scratch-playback audio engine in
`app/src/main/cpp/native-lib.cpp`.

Embedding conventions:
* C `float`/`double` values are embedded as exact rationals (`ℚ`); the
  float literals of the source (`0.001f`, `1e-5`, `0.17f`, ...) become the
  corresponding rational literals.
* `int32_t` becomes `ℤ`.
* `std::atomic` fields are plain fields: every claim here is about a
  single-threaded execution of one call, where atomic load/store is plain
  read/write.
* `fmodf` and C integer `%` truncate toward zero; they are embedded via
  `truncQ` and `Int.tmod`.
* `static_cast<int>` of a `float` truncates toward zero (`truncQ`).
* The Android asset manager together with the dr_wav / dr_mp3 decoders is
  an external collaborator (not part of this repository's sources); it is
  embedded as an oracle `DecoderOracle` mapping asset paths to decode
  results, exactly at the call boundary used by `tryLoadPath`.
* The transcendental arithmetic (`sin`, `sqrt`, `exp`) producing the raw
  windowed-sinc coefficient `sincValue * windowValue` of
  `precalculateSincTable` is not rationally computable; the raw
  coefficient at row `j`, tap `i` is therefore a parameter
  `coeff : ℕ → ℕ → ℚ` of the table construction, while the summation and
  the normalization branch of the source are embedded exactly.
-/

/-- NUM_TAPS of the source: number of interpolation taps. -/
def NUM_TAPS : ℕ := 16

/-- SUBDIVISION_STEPS of the source: number of precalculated fractional offsets. -/
def SUBDIVISION_STEPS : ℕ := 1024

/-- MOVEMENT_THRESHOLD of AudioEngine (0.001f). -/
def MOVEMENT_THRESHOLD : ℚ := 1 / 1000

/-- Truncation toward zero of a rational, as C performs when casting a
floating value to an integer type. -/
def truncQ (x : ℚ) : ℤ :=
  if 0 ≤ x then ⌊x⌋ else ⌈x⌉

/-- C `fmodf`: `fmodf x y = x - trunc (x / y) * y` (result carries the sign
of `x`). -/
def qfmod (x y : ℚ) : ℚ :=
  x - (truncQ (x / y) : ℚ) * y

/-- The `AudioSample` struct of the source.  `preciseCurrentFrame` is the
fractional playback cursor. -/
structure AudioSample where
  filePath : String
  audioData : List ℚ
  totalFrames : ℤ
  channels : ℤ
  sampleRate : ℤ
  isPlaying : Bool
  loop : Bool
  playOnceThenLoopSilently : Bool
  playedOnce : Bool
  preciseCurrentFrame : ℚ
  useEngineRateForPlayback : Bool
  deriving DecidableEq, Repr

/-- The frame index actually read by `AudioSample::getSampleAt` after its
loop-wrap / clamp logic (source lines 66-78).  `Int.tmod` is C `%`. -/
def effectiveFrameIndex (s : AudioSample) (frameIndex : ℤ) : ℤ :=
  if s.loop then
    if 0 < s.totalFrames then
      let e := Int.tmod frameIndex s.totalFrames
      if e < 0 then e + s.totalFrames else e
    else 0
  else max 0 (min frameIndex (s.totalFrames - 1))

/-- `AudioSample::getSampleAt` (source lines 63-85).  The final list access
mirrors the source's explicit `actualIndex < audioData.size()` guard; the
guard in the source is on a `size_t`, so a negative `actualIndex` (which
would wrap to a huge unsigned value and fail the size test) also yields
`0.0f`, exactly as the `0 ≤ actualIndex` conjunct here. -/
def getSampleAt (s : AudioSample) (frameIndex channelIndex : ℤ) : ℚ :=
  if s.audioData = [] ∨ s.totalFrames = 0 then 0
  else
    let eff := effectiveFrameIndex s frameIndex
    let actualIndex : ℤ := eff * s.channels + Int.tmod channelIndex s.channels
    if h : 0 ≤ actualIndex ∧ actualIndex.toNat < s.audioData.length then
      s.audioData.get ⟨actualIndex.toNat, h.2⟩
    else 0

/-- Raw (pre-normalization) kernel row `j` of `precalculateSincTable`
(source lines 151-183): coefficient `i` is `sincValue * windowValue`,
supplied by the abstract parameter `coeff` (transcendental arithmetic). -/
def rawRow (coeff : ℕ → ℕ → ℚ) (j : ℕ) : List ℚ :=
  (List.range NUM_TAPS).map (coeff j)

/-- The per-row normalization branch of `precalculateSincTable` (source
lines 185-190): rows whose coefficient sum has magnitude above `1e-6` are
divided through by that sum; degenerate rows are left untouched. -/
def normalizeRow (row : List ℚ) : List ℚ :=
  let sumCoeffs := row.sum
  if |sumCoeffs| > 1 / 1000000 then row.map (fun c => c / sumCoeffs) else row

/-- `AudioSample::precalculateSincTable` (source lines 140-194), given the
raw transcendental coefficients: SUBDIVISION_STEPS rows, each normalized
by `normalizeRow`. -/
def precalculateSincTable (coeff : ℕ → ℕ → ℚ) : List (List ℚ) :=
  (List.range SUBDIVISION_STEPS).map (fun j => normalizeRow (rawRow coeff j))

/-- Kernel-row selection of `AudioSample::getAudio` (source lines 434-435):
`static_cast<int>(fractionalTime * SUBDIVISION_STEPS)` clamped with
`std::min` to the last row. -/
def sincTableIndex (fractionalTime : ℚ) : ℤ :=
  min (truncQ (fractionalTime * (SUBDIVISION_STEPS : ℚ))) ((SUBDIVISION_STEPS : ℤ) - 1)

/-- Boundary handling performed before each frame's sample fetch in
`AudioSample::getAudio` (source lines 400-423).  In the one-shot branch the
source stores `loop := true` when it is not already true, which nets to
setting it. -/
def boundaryStep (s : AudioSample) : AudioSample :=
  if s.preciseCurrentFrame ≥ (s.totalFrames : ℚ) ∨ s.preciseCurrentFrame < 0 then
    if s.playOnceThenLoopSilently ∧ ¬ s.playedOnce then
      { s with playedOnce := true, preciseCurrentFrame := 0, loop := true }
    else if s.loop then
      if 0 < s.totalFrames then
        let c := qfmod s.preciseCurrentFrame (s.totalFrames : ℚ)
        { s with preciseCurrentFrame := if c < 0 then c + (s.totalFrames : ℚ) else c }
      else
        { s with preciseCurrentFrame := 0 }
    else
      { s with isPlaying := false }
  else s

/-- Convolution of one output channel in `AudioSample::getAudio` (source
lines 458-461): NUM_TAPS neighbouring samples fetched through
`getSampleAt`, weighted by the selected kernel row. -/
def interpolatedSample (s : AudioSample) (coeffs : List ℚ) (kernelStartFrameIndex : ℤ)
    (srcChannel : ℤ) : ℚ :=
  ((List.range NUM_TAPS).map
      (fun k => getSampleAt s (kernelStartFrameIndex + Int.ofNat k) srcChannel * coeffs.getD k 0)).sum

/-- Everything `getAudio` produces for one output frame: the integer base
frame, the fractional offset, the selected kernel-row index, and the values
added into the output buffer (one per output channel, already scaled by the
effective volume). -/
structure FrameOut where
  base : ℤ
  frac : ℚ
  tableIdx : ℕ
  contributions : List ℚ
  deriving DecidableEq, Repr

/-- One iteration of the per-frame loop of `AudioSample::getAudio` (source
lines 393-465): check `isPlaying`, run the boundary logic, re-check
`isPlaying`, select the kernel row, convolve each output channel, advance
the cursor by the playback rate.  `table` is the precalculated sinc table
(row lookup by index). -/
def renderFrame (table : ℕ → List ℚ) (rate : ℚ) (outputStreamChannels : ℕ)
    (effectiveVolume : ℚ) (s : AudioSample) : AudioSample × Option FrameOut :=
  if ¬ s.isPlaying then (s, none)
  else
    let s1 := boundaryStep s
    if ¬ s1.isPlaying then (s1, none)
    else
      let fractionalTime := s1.preciseCurrentFrame - (⌊s1.preciseCurrentFrame⌋ : ℚ)
      let baseFrameIndex : ℤ := ⌊s1.preciseCurrentFrame⌋
      let idx : ℕ := (sincTableIndex fractionalTime).toNat
      let coefficients := table idx
      let kernelStartFrameIndex : ℤ := baseFrameIndex - ((NUM_TAPS : ℤ) / 2 - 1)
      let contribs := (List.range outputStreamChannels).map
        (fun ch =>
          interpolatedSample s1 coefficients kernelStartFrameIndex
              (Int.tmod (ch : ℤ) s1.channels) * effectiveVolume)
      ({ s1 with preciseCurrentFrame := s1.preciseCurrentFrame + rate },
       some ⟨baseFrameIndex, fractionalTime, idx, contribs⟩)

/-- The per-frame loop of `getAudio`, iterated over `numOutputFrames`
frames, threading the voice state and collecting each frame's output
(`none` for frames where the loop broke out). -/
def getAudioLoop (table : ℕ → List ℚ) (rate : ℚ) (outputStreamChannels : ℕ)
    (effectiveVolume : ℚ) : ℕ → AudioSample → AudioSample × List (Option FrameOut)
  | 0, s => (s, [])
  | n + 1, s =>
      let r1 := renderFrame table rate outputStreamChannels effectiveVolume s
      let r2 := getAudioLoop table rate outputStreamChannels effectiveVolume n r1.1
      (r2.1, r1.2 :: r2.2)

/-- `AudioSample::getAudio` (source lines 337-467): select the playback
rate (the engine's shared platter rate when `useEngineRateForPlayback` is
set and the engine pointer is non-null, else 1.0), return immediately for
an unplayable voice, else run the frame loop. -/
def getAudio (table : ℕ → List ℚ) (engineRate : Option ℚ) (numOutputFrames outputStreamChannels : ℕ)
    (effectiveVolume : ℚ) (s : AudioSample) : AudioSample × List (Option FrameOut) :=
  let playbackRateToUse : ℚ :=
    if s.useEngineRateForPlayback then
      match engineRate with
      | some r => r
      | none => 1
    else 1
  if ¬ s.isPlaying ∨ s.audioData = [] ∨ s.totalFrames = 0 ∨ s.channels = 0 then (s, [])
  else getAudioLoop table playbackRateToUse outputStreamChannels effectiveVolume numOutputFrames s

/-- `AudioSample::hasExtension` (source lines 271-279): lowercase the path
with per-character `tolower`, then compare its last `extension.length`
characters with the (lowercase) extension argument.  Expressed over the
string's character list, which is the same comparison the source's
`std::string::compare(len - extLen, extLen, ext)` performs. -/
def hasExtension (path extension : String) : Bool :=
  if extension.length ≤ path.length then
    ((path.data.map Char.toLower).drop (path.length - extension.length)) == extension.data
  else false

/-- Decoded PCM data a successful decode produces. -/
structure DecodedData where
  audioData : List ℚ
  totalFrames : ℤ
  channels : ℤ
  sampleRate : ℤ
  deriving DecidableEq, Repr

/-- The external asset/decoder collaborator of `tryLoadPath`: whether
`AAssetManager_open` plus `AAsset_getBuffer` succeed for a path, and what
dr_wav / dr_mp3 produce on that asset's bytes (`none` for decode failure,
including a short `drwav_read_pcm_frames_f32` read). -/
structure DecoderOracle where
  openAsset : String → Bool
  wavDecode : String → Option DecodedData
  mp3Decode : String → Option DecodedData

/-- `AudioSample::tryLoadPath` (source lines 281-306): clear the audio
fields, open the asset, dispatch on the path's extension to the wav or mp3
decoder, fill the fields on success.  Returns the updated sample and the
`success` flag. -/
def tryLoadPath (oracle : DecoderOracle) (s : AudioSample) (currentPathToTry : String) :
    AudioSample × Bool :=
  let s0 := { s with audioData := [], totalFrames := 0, channels := 0, sampleRate := 0 }
  if ¬ oracle.openAsset currentPathToTry then (s0, false)
  else if hasExtension currentPathToTry ".wav" then
    match oracle.wavDecode currentPathToTry with
    | some d =>
        ({ s0 with audioData := d.audioData, totalFrames := d.totalFrames,
                   channels := d.channels, sampleRate := d.sampleRate }, true)
    | none => (s0, false)
  else if hasExtension currentPathToTry ".mp3" then
    match oracle.mp3Decode currentPathToTry with
    | some d =>
        ({ s0 with audioData := d.audioData, totalFrames := d.totalFrames,
                   channels := d.channels, sampleRate := d.sampleRate }, true)
    | none => (s0, false)
  else (s0, false)

/-- Whether an attempt on a path succeeds (`tryLoadPath`'s `success`
flag); it does not depend on the incoming sample state. -/
def attemptOk (oracle : DecoderOracle) (path : String) : Bool :=
  if ¬ oracle.openAsset path then false
  else if hasExtension path ".wav" then (oracle.wavDecode path).isSome
  else if hasExtension path ".mp3" then (oracle.mp3Decode path).isSome
  else false

/-- The decoded data an attempt on a path would accept, when it succeeds. -/
def decodeResult (oracle : DecoderOracle) (path : String) : Option DecodedData :=
  if ¬ oracle.openAsset path then none
  else if hasExtension path ".wav" then oracle.wavDecode path
  else if hasExtension path ".mp3" then oracle.mp3Decode path
  else none

/-- `AudioSample::load` (source lines 308-335): reset the playback state,
try the literal path (only when it already carries a known extension, as
the source's guard does), then `basePath + ".mp3"`, then
`basePath + ".wav"`; record the resolved path on success, else clear the
audio fields and keep the base path. -/
def load (oracle : DecoderOracle) (s : AudioSample) (basePath : String) : AudioSample :=
  let s0 := { s with isPlaying := false, preciseCurrentFrame := 0,
                     useEngineRateForPlayback := false,
                     playedOnce := false, loop := false,
                     playOnceThenLoopSilently := false }
  let r1 := if hasExtension basePath ".wav" ∨ hasExtension basePath ".mp3" then
      tryLoadPath oracle s0 basePath
    else (s0, false)
  if r1.2 then { r1.1 with filePath := basePath }
  else
    let r2 := tryLoadPath oracle r1.1 (basePath ++ ".mp3")
    if r2.2 then { r2.1 with filePath := basePath ++ ".mp3" }
    else
      let r3 := tryLoadPath oracle r2.1 (basePath ++ ".wav")
      if r3.2 then { r3.1 with filePath := basePath ++ ".wav" }
      else
        { r3.1 with filePath := basePath,
                    audioData := [], totalFrames := 0, channels := 0, sampleRate := 0 }

/-- The shared state of `AudioEngine` touched by
`scratchPlatterActiveInternal`, plus the platter voice
(`none` models a null `platterAudioSample_`). -/
structure AudioEngineState where
  platterTargetPlaybackRate : ℚ
  scratchSensitivity : ℚ
  degreesPerFrameForUnityRate : ℚ
  isFingerDownOnPlatter : Bool
  platter : Option AudioSample
  deriving DecidableEq

/-- `AudioEngine::scratchPlatterActiveInternal` (source lines 744-821).
The source's conditional `isPlaying` stores (store only when the value
differs) net to plain assignments and are embedded as such. -/
def scratchPlatterActiveInternal (e : AudioEngineState) (isActiveTouch : Bool)
    (angleDeltaOrRateFromViewModel : ℚ) : AudioEngineState :=
  let e0 := { e with isFingerDownOnPlatter := isActiveTouch }
  match e0.platter with
  | none => e0
  | some p =>
    if p.totalFrames = 0 then
      { e0 with platter := some { p with useEngineRateForPlayback := false } }
    else
      let p1 := { p with useEngineRateForPlayback := true }
      let currentSensitivity := e0.scratchSensitivity
      if isActiveTouch then
        if |angleDeltaOrRateFromViewModel| > MOVEMENT_THRESHOLD then
          let normalizedInputRate : ℚ :=
            if |e0.degreesPerFrameForUnityRate| > 1 / 100000 then
              angleDeltaOrRateFromViewModel / e0.degreesPerFrameForUnityRate
            else if |angleDeltaOrRateFromViewModel| > 1 / 100000 then
              angleDeltaOrRateFromViewModel
            else 0
          let targetAudioRate := normalizedInputRate * currentSensitivity
          let targetAudioRate := min 4 (max (-4) targetAudioRate)
          { e0 with platter := some { p1 with isPlaying := true },
                    platterTargetPlaybackRate := targetAudioRate }
        else
          { e0 with platter := some { p1 with isPlaying := false },
                    platterTargetPlaybackRate := 0 }
      else
        let targetAudioRate := angleDeltaOrRateFromViewModel
        { e0 with platter := some { p1 with isPlaying := |targetAudioRate| > 1 / 100000 },
                  platterTargetPlaybackRate := targetAudioRate }

/-- The spec's description of path resolution, for comparison with `load`:
try, in order, the literal supplied path, then the path with `".mp3"`
appended, then with `".wav"` appended, and accept the first attempt that
decodes successfully. -/
def resolvedPath (oracle : DecoderOracle) (basePath : String) : Option String :=
  if attemptOk oracle basePath then some basePath
  else if attemptOk oracle (basePath ++ ".mp3") then some (basePath ++ ".mp3")
  else if attemptOk oracle (basePath ++ ".wav") then some (basePath ++ ".wav")
  else none

/-! Helper lemmas about C truncated remainder (`Int.tmod`). -/

/-- Truncated remainder of a negated dividend is the negated remainder. -/
theorem tmod_neg_left (a b : ℤ) : Int.tmod (-a) b = - Int.tmod a b := by
  rw [Int.tmod_def, Int.tmod_def, Int.neg_tdiv, Int.mul_neg]
  ring

/-- Truncated remainder by a positive modulus is greater than its negation. -/
theorem tmod_lower_bound (a : ℤ) {b : ℤ} (hb : 0 < b) : -b < Int.tmod a b := by
  rcases le_or_lt 0 a with ha | ha
  · have h := Int.tmod_nonneg b ha
    linarith
  · have h1 : Int.tmod a b = - Int.tmod (-a) b := by rw [tmod_neg_left, neg_neg]
    have h2 : Int.tmod (-a) b < b := Int.tmod_lt_of_pos _ hb
    linarith

/-- In the looped case with a positive frame count, the wrap computed from
C truncated remainder equals the mathematical (Euclidean) remainder. -/
theorem effectiveFrameIndex_loop (s : AudioSample) (fi : ℤ) (hl : s.loop = true)
    (hpos : 0 < s.totalFrames) : effectiveFrameIndex s fi = fi % s.totalFrames := by
  simp only [effectiveFrameIndex, hl, if_true, if_pos hpos]
  rcases le_or_lt 0 fi with ha | ha
  · rw [Int.tmod_eq_emod ha hpos.le,
      if_neg (not_lt.mpr (Int.emod_nonneg fi (by omega)))]
  · have h1 : Int.tmod (-fi) s.totalFrames = (-fi) % s.totalFrames :=
      Int.tmod_eq_emod (by omega) hpos.le
    have hneg : Int.tmod fi s.totalFrames = - ((-fi) % s.totalFrames) := by
      rw [← h1, ← tmod_neg_left, neg_neg]
    set m := (-fi) % s.totalFrames with hm
    have hm0 : 0 ≤ m := Int.emod_nonneg _ (by omega)
    have hmb : m < s.totalFrames := Int.emod_lt_of_pos _ hpos
    have hdec : m + s.totalFrames * (-fi / s.totalFrames) = -fi := Int.emod_add_ediv _ _
    have hfi : fi % s.totalFrames = (-m) % s.totalFrames := by
      have h2 : fi = -m + s.totalFrames * (-(-fi / s.totalFrames)) := by linarith
      rw [h2, Int.add_mul_emod_self_left]
    rcases eq_or_lt_of_le hm0 with hz | hpos2
    · rw [hneg, ← hz, hfi, ← hz]
      norm_num
    · rw [hneg, if_pos (by omega), hfi]
      have h3 : (-m) % s.totalFrames = (-m + s.totalFrames * 1) % s.totalFrames := by
        rw [Int.add_mul_emod_self_left]
      rw [h3, mul_one, Int.emod_eq_of_lt (by omega) (by omega)]

/-- Claim C1: for every voice (looped or not), every frame index demanded by
the render convolution (any sign, any magnitude) and every channel index,
`getSampleAt` reads the decoded buffer only at frame indices inside
`[0, totalFrames)` — `effectiveFrameIndex` lands in that window whenever
`totalFrames` is positive — and it returns `0.0` for an empty buffer or a
zero frame count.  (Within `getSampleAt`, the list access itself is guarded
by the source's explicit bounds test, and `renderFrame` reads the buffer
only through `getSampleAt`.) -/
theorem getSampleAt_inbounds (s : AudioSample) (frameIndex channelIndex : ℤ) :
    ((s.audioData = [] ∨ s.totalFrames = 0) → getSampleAt s frameIndex channelIndex = 0) ∧
    (0 < s.totalFrames →
      0 ≤ effectiveFrameIndex s frameIndex ∧ effectiveFrameIndex s frameIndex < s.totalFrames) := by
  constructor
  · intro h
    simp only [getSampleAt, if_pos h]
  · intro hpos
    have hub := Int.tmod_lt_of_pos frameIndex hpos
    have hlb := tmod_lower_bound frameIndex hpos
    simp only [effectiveFrameIndex]
    by_cases hl : s.loop
    · simp only [hl, if_true, if_pos hpos]
      by_cases hneg : Int.tmod frameIndex s.totalFrames < 0
      · simp only [if_pos hneg]
        constructor <;> linarith
      · simp only [if_neg hneg]
        push_neg at hneg
        exact ⟨hneg, hub⟩
    · simp only [hl, if_false]
      refine ⟨le_max_left 0 _, ?_⟩
      have hmin : min frameIndex (s.totalFrames - 1) ≤ s.totalFrames - 1 := min_le_right _ _
      have : max 0 (min frameIndex (s.totalFrames - 1)) < s.totalFrames :=
        max_lt (by linarith) (by linarith)
      exact this

/-- Witness for C1 at concrete inputs: an empty voice yields `0.0`, and a
looped 3-frame voice clamps the far-negative frame index `-11` into
`[0, 3)`. -/
theorem getSampleAt_inbounds_witness :
    (getSampleAt ⟨"", [], 0, 0, 0, false, false, false, false, 0, false⟩ 5 2 = 0) ∧
    (0 ≤ effectiveFrameIndex ⟨"", [1, 2, 3], 3, 1, 0, true, true, false, false, 0, false⟩ (-11) ∧
      effectiveFrameIndex ⟨"", [1, 2, 3], 3, 1, 0, true, true, false, false, 0, false⟩ (-11) < 3) :=
  ⟨(getSampleAt_inbounds ⟨"", [], 0, 0, 0, false, false, false, false, 0, false⟩ 5 2).1
      (Or.inl rfl),
   (getSampleAt_inbounds ⟨"", [1, 2, 3], 3, 1, 0, true, true, false, false, 0, false⟩ (-11) 0).2
      (by decide)⟩

/-- Counterexample to claim C2 at a concrete input.  Voice: 10 frames of
constant sample `1.0`, mono, looped, playing, under external rate control
with engine rate `1e-6` (magnitude below the claimed epsilon `1e-5`),
cursor at `10` (just past the end).  The claim asserts such a frame emits
silence, does not advance the cursor and performs no boundary check; the
code instead performs the boundary wrap (cursor `10 ↦ 0`), emits the
interpolated sample `1.0` (not silence), and advances the cursor by the
rate, ending at `1e-6` rather than `10`. -/
theorem getAudio_rate_epsilon_counterexample :
    (getAudio (fun _ => List.replicate NUM_TAPS (1 / 16)) (some (1 / 1000000)) 1 1 1
        ⟨"p", List.replicate 10 1, 10, 1, 44100, true, true, false, false, 10, true⟩).1.preciseCurrentFrame
      = 1 / 1000000 ∧
    (getAudio (fun _ => List.replicate NUM_TAPS (1 / 16)) (some (1 / 1000000)) 1 1 1
        ⟨"p", List.replicate 10 1, 10, 1, 44100, true, true, false, false, 10, true⟩).2
      = [some ⟨0, 0, 0, [1]⟩] := by
  constructor
  · norm_num [getAudio, getAudioLoop, renderFrame, boundaryStep, qfmod, truncQ, sincTableIndex,
      interpolatedSample, getSampleAt, effectiveFrameIndex, NUM_TAPS, SUBDIVISION_STEPS]
  · norm_num [getAudio, getAudioLoop, renderFrame, boundaryStep, qfmod, truncQ, sincTableIndex,
      interpolatedSample, getSampleAt, effectiveFrameIndex_loop, NUM_TAPS, SUBDIVISION_STEPS,
      List.range_succ, List.getElem_replicate, List.getD]

/-- Claim C2 as amended: `getAudio` applies no epsilon test to the
per-frame rate.  Any frame reached with `isPlaying` and the cursor inside
`[0, totalFrames)` is rendered through the interpolation kernel — also
when the rate's magnitude is below `1e-5` — and the cursor advances by
exactly that rate.  (Near-zero rates are silenced only by the control
layer, `scratchPlatterActiveInternal`, which stores rate `0` and
`isPlaying := false` for a stationary touch.) -/
theorem renderFrame_no_rate_epsilon (table : ℕ → List ℚ) (rate : ℚ)
    (outputStreamChannels : ℕ) (effectiveVolume : ℚ) (s : AudioSample)
    (hplay : s.isPlaying = true) (h0 : 0 ≤ s.preciseCurrentFrame)
    (hlt : s.preciseCurrentFrame < (s.totalFrames : ℚ)) (_hsmall : |rate| < 1 / 100000) :
    (renderFrame table rate outputStreamChannels effectiveVolume s).1.preciseCurrentFrame
        = s.preciseCurrentFrame + rate ∧
    ((renderFrame table rate outputStreamChannels effectiveVolume s).2).isSome = true := by
  have hb : boundaryStep s = s := by
    simp only [boundaryStep]
    rw [if_neg]
    push_neg
    exact ⟨by linarith, h0⟩
  simp only [renderFrame, hplay, not_true, if_false, hb]
  simp

/-- Witness for the amended C2: a playing mono voice with cursor `5` in a
10-frame buffer, rate `1e-6`: the frame is emitted and the cursor becomes
`5 + 1e-6`. -/
theorem renderFrame_no_rate_epsilon_witness :
    (|(1 / 1000000 : ℚ)| < 1 / 100000) ∧
    (renderFrame (fun _ => List.replicate NUM_TAPS (1 / 16)) (1 / 1000000) 1 1
        ⟨"p", List.replicate 10 1, 10, 1, 44100, true, true, false, false, 5, true⟩).1.preciseCurrentFrame
      = 5 + 1 / 1000000 ∧
    ((renderFrame (fun _ => List.replicate NUM_TAPS (1 / 16)) (1 / 1000000) 1 1
        ⟨"p", List.replicate 10 1, 10, 1, 44100, true, true, false, false, 5, true⟩).2).isSome = true :=
  by
  have habs : |(1 / 1000000 : ℚ)| < 1 / 100000 := by
    rw [abs_of_pos (by norm_num : (0 : ℚ) < 1 / 1000000)]
    norm_num
  refine ⟨habs, ?_, ?_⟩
  · exact (renderFrame_no_rate_epsilon (fun _ => List.replicate NUM_TAPS (1 / 16)) (1 / 1000000) 1 1
      ⟨"p", List.replicate 10 1, 10, 1, 44100, true, true, false, false, 5, true⟩
      rfl (by norm_num) (by norm_num) habs).1
  · exact (renderFrame_no_rate_epsilon (fun _ => List.replicate NUM_TAPS (1 / 16)) (1 / 1000000) 1 1
      ⟨"p", List.replicate 10 1, 10, 1, 44100, true, true, false, false, 5, true⟩
      rfl (by norm_num) (by norm_num) habs).2

/-- Dividing every list entry by a constant divides the sum. -/
theorem list_sum_map_div (l : List ℚ) (c : ℚ) :
    (l.map (fun x => x / c)).sum = l.sum / c := by
  induction l with
  | nil => simp
  | cons a t ih => simp [ih, add_div]

/-- Row `j` of the built table is the normalized raw row. -/
theorem precalculateSincTable_getD (coeff : ℕ → ℕ → ℚ) (j : ℕ) (hj : j < SUBDIVISION_STEPS) :
    (precalculateSincTable coeff).getD j [] = normalizeRow (rawRow coeff j) := by
  simp [precalculateSincTable, List.getD_eq_getElem?_getD, List.getElem?_map,
    List.getElem?_range hj]

/-- Claim C3: after the table is built, every one of the SUBDIVISION_STEPS
kernel rows sums to `1.0` (so in particular within the claimed `1e-4`
tolerance), except that a degenerate row whose pre-normalization sum has
magnitude at most `1e-6` is left exactly as computed instead of being
divided by its sum. -/
theorem sincTable_row_normalized (coeff : ℕ → ℕ → ℚ) (j : ℕ) (hj : j < SUBDIVISION_STEPS) :
    (|(rawRow coeff j).sum| > 1 / 1000000 →
      ((precalculateSincTable coeff).getD j []).sum = 1 ∧
      |((precalculateSincTable coeff).getD j []).sum - 1| ≤ 1 / 10000) ∧
    (|(rawRow coeff j).sum| ≤ 1 / 1000000 →
      (precalculateSincTable coeff).getD j [] = rawRow coeff j) := by
  rw [precalculateSincTable_getD coeff j hj]
  constructor
  · intro h
    have hne : (rawRow coeff j).sum ≠ 0 := by
      intro h0
      rw [h0] at h
      norm_num at h
    have hsum : (normalizeRow (rawRow coeff j)).sum = 1 := by
      simp only [normalizeRow, if_pos h]
      rw [list_sum_map_div, div_self hne]
    refine ⟨hsum, ?_⟩
    rw [hsum]
    norm_num
  · intro h
    simp only [normalizeRow]
    rw [if_neg (not_lt.mpr h)]

/-- Witness for C3: with the constant raw coefficient `1`, row `0` has raw
sum `16` (above the degeneracy threshold) and the built row sums to `1`. -/
theorem sincTable_row_normalized_witness :
    (0 < SUBDIVISION_STEPS) ∧ (|(rawRow (fun _ _ => 1) 0).sum| > 1 / 1000000) ∧
    ((precalculateSincTable (fun _ _ => 1)).getD 0 []).sum = 1 := by
  have hj : (0 : ℕ) < SUBDIVISION_STEPS := by norm_num [SUBDIVISION_STEPS]
  have hsum : (rawRow (fun _ _ => (1 : ℚ)) 0).sum = 16 := by
    norm_num [rawRow, NUM_TAPS, List.range_succ]
  have habs : |(rawRow (fun _ _ => (1 : ℚ)) 0).sum| > 1 / 1000000 := by
    rw [hsum, abs_of_pos (by norm_num : (0 : ℚ) < 16)]
    norm_num
  exact ⟨hj, habs, ((sincTable_row_normalized (fun _ _ => 1) 0 hj).1 habs).1⟩

/-- Counterexample to claim C4 at a concrete input.  For the fractional
offset `t = 9/10240` (so `t · SUBDIVISION_STEPS = 0.9`), the code's
`static_cast<int>` truncation selects row `0`, while the claimed
`round(t · SUBDIVISION_STEPS)` clamped to the last row would select
row `1`. -/
theorem sincTableIndex_round_counterexample :
    sincTableIndex (9 / 10240) = 0 ∧
    min (round ((9 / 10240 : ℚ) * (SUBDIVISION_STEPS : ℚ))) ((SUBDIVISION_STEPS : ℤ) - 1) = 1 := by
  have hval : (9 / 10240 : ℚ) * (SUBDIVISION_STEPS : ℚ) = 9 / 10 := by
    norm_num [SUBDIVISION_STEPS]
  constructor
  · unfold sincTableIndex truncQ
    rw [hval, if_pos (by norm_num)]
    have hfl : ⌊(9 / 10 : ℚ)⌋ = 0 := by
      rw [Int.floor_eq_iff]
      constructor <;> norm_num
    rw [hfl]
    norm_num [SUBDIVISION_STEPS]
  · rw [hval, round_eq]
    have hfl : ⌊(9 / 10 : ℚ) + 1 / 2⌋ = 1 := by
      rw [Int.floor_eq_iff]
      constructor <;> norm_num
    rw [hfl]
    norm_num [SUBDIVISION_STEPS]

/-- Claim C4 as amended: for every fractional offset `t ∈ [0,1)`, the
kernel row used by render is `⌊t · SUBDIVISION_STEPS⌋` (truncation toward
zero, which on `[0,1)` is the floor, not rounding), and the `std::min`
clamp keeps it a valid row index. -/
theorem sincTableIndex_floor (t : ℚ) (h0 : 0 ≤ t) (h1 : t < 1) :
    sincTableIndex t = ⌊t * (SUBDIVISION_STEPS : ℚ)⌋ ∧
    0 ≤ sincTableIndex t ∧ sincTableIndex t < (SUBDIVISION_STEPS : ℤ) := by
  have hx : (0 : ℚ) ≤ t * (SUBDIVISION_STEPS : ℚ) := by
    apply mul_nonneg h0
    norm_num [SUBDIVISION_STEPS]
  have hlt : t * (SUBDIVISION_STEPS : ℚ) < (SUBDIVISION_STEPS : ℚ) := by
    have hpos : (0 : ℚ) < (SUBDIVISION_STEPS : ℚ) := by norm_num [SUBDIVISION_STEPS]
    nlinarith
  have hge : 0 ≤ ⌊t * (SUBDIVISION_STEPS : ℚ)⌋ := Int.floor_nonneg.mpr hx
  have hfl : ⌊t * (SUBDIVISION_STEPS : ℚ)⌋ < (SUBDIVISION_STEPS : ℤ) := by
    apply Int.floor_lt.mpr
    push_cast
    exact hlt
  have heq : sincTableIndex t = ⌊t * (SUBDIVISION_STEPS : ℚ)⌋ := by
    unfold sincTableIndex truncQ
    rw [if_pos hx]
    exact min_eq_left (by omega)
  exact ⟨heq, by rw [heq]; exact hge, by rw [heq]; exact hfl⟩

/-- Witness for the amended C4 at `t = 1/2`. -/
theorem sincTableIndex_floor_witness :
    ((0 : ℚ) ≤ 1 / 2) ∧ ((1 / 2 : ℚ) < 1) ∧
    (sincTableIndex (1 / 2) = ⌊(1 / 2 : ℚ) * (SUBDIVISION_STEPS : ℚ)⌋ ∧
      0 ≤ sincTableIndex (1 / 2) ∧ sincTableIndex (1 / 2) < (SUBDIVISION_STEPS : ℤ)) :=
  ⟨by norm_num, by norm_num, sincTableIndex_floor (1 / 2) (by norm_num) (by norm_num)⟩

/-- Claim C5: for every sensitivity and every unity-rate reference, a
touch-active update whose raw angular delta has magnitude at most the
movement threshold `0.001` stores playback rate `0` and stops the platter
voice (`isPlaying` becomes `false`). -/
theorem scratch_stationary_touch (e : AudioEngineState) (p : AudioSample) (delta : ℚ)
    (hp : e.platter = some p) (hframes : p.totalFrames ≠ 0)
    (hsmall : |delta| ≤ MOVEMENT_THRESHOLD) :
    (scratchPlatterActiveInternal e true delta).platterTargetPlaybackRate = 0 ∧
    (scratchPlatterActiveInternal e true delta).platter.map AudioSample.isPlaying
      = some false := by
  simp only [scratchPlatterActiveInternal, hp]
  rw [if_neg hframes, if_neg (not_lt.mpr hsmall)]
  simp

/-- Witness for C5: sensitivity `3`, unity reference `7`, raw delta
`0.0005`. -/
theorem scratch_stationary_touch_witness :
    ((⟨1, 3, 7, false, some ⟨"", [1], 1, 1, 0, true, false, false, false, 0, false⟩⟩ :
        AudioEngineState).platter
      = some ⟨"", [1], 1, 1, 0, true, false, false, false, 0, false⟩) ∧
    ((1 : ℤ) ≠ 0) ∧ (|(5 / 10000 : ℚ)| ≤ MOVEMENT_THRESHOLD) ∧
    ((scratchPlatterActiveInternal
        ⟨1, 3, 7, false, some ⟨"", [1], 1, 1, 0, true, false, false, false, 0, false⟩⟩
        true (5 / 10000)).platterTargetPlaybackRate = 0 ∧
      (scratchPlatterActiveInternal
        ⟨1, 3, 7, false, some ⟨"", [1], 1, 1, 0, true, false, false, false, 0, false⟩⟩
        true (5 / 10000)).platter.map AudioSample.isPlaying = some false) := by
  have hsmall : |(5 / 10000 : ℚ)| ≤ MOVEMENT_THRESHOLD := by
    rw [abs_of_pos (by norm_num : (0 : ℚ) < 5 / 10000)]
    norm_num [MOVEMENT_THRESHOLD]
  exact ⟨rfl, by norm_num, hsmall,
    scratch_stationary_touch
      ⟨1, 3, 7, false, some ⟨"", [1], 1, 1, 0, true, false, false, false, 0, false⟩⟩
      ⟨"", [1], 1, 1, 0, true, false, false, false, 0, false⟩
      (5 / 10000) rfl (by norm_num) hsmall⟩

/-- Claim C6: a touch-active update whose raw angular delta exceeds the
movement threshold stores
`clamp((rawInput / degreesPerUnityRate) * sensitivity, -4, 4)` — with
`rawInput` used unnormalized when the unity-rate constant has magnitude at
most `1e-5` — and sets the voice playing.  (The source's third fallback
branch, raw input itself below `1e-5`, is unreachable here because the
movement threshold `0.001` exceeds `1e-5`.) -/
theorem scratch_moving_touch (e : AudioEngineState) (p : AudioSample) (delta : ℚ)
    (hp : e.platter = some p) (hframes : p.totalFrames ≠ 0)
    (hmove : |delta| > MOVEMENT_THRESHOLD) :
    (scratchPlatterActiveInternal e true delta).platterTargetPlaybackRate
      = min 4 (max (-4)
          ((if |e.degreesPerFrameForUnityRate| > 1 / 100000 then
              delta / e.degreesPerFrameForUnityRate
            else delta) * e.scratchSensitivity)) ∧
    (scratchPlatterActiveInternal e true delta).platter.map AudioSample.isPlaying
      = some true := by
  have hdelta : |delta| > 1 / 100000 := by
    have : MOVEMENT_THRESHOLD > 1 / 100000 := by norm_num [MOVEMENT_THRESHOLD]
    linarith
  simp only [scratchPlatterActiveInternal, hp]
  rw [if_neg hframes, if_pos hmove]
  refine ⟨?_, by simp⟩
  split_ifs <;> simp_all

/-- Witness for C6, the spec's own numeric example: raw delta `10`,
sensitivity `0.17`, unity reference `2.5` yield stored rate
`(10 / 2.5) · 0.17 = 0.68` with the voice playing. -/
theorem scratch_moving_touch_witness :
    (|(10 : ℚ)| > MOVEMENT_THRESHOLD) ∧
    ((scratchPlatterActiveInternal
        ⟨1, 17 / 100, 5 / 2, false, some ⟨"", [1], 1, 1, 0, false, false, false, false, 0, false⟩⟩
        true 10).platterTargetPlaybackRate = 68 / 100 ∧
      (scratchPlatterActiveInternal
        ⟨1, 17 / 100, 5 / 2, false, some ⟨"", [1], 1, 1, 0, false, false, false, false, 0, false⟩⟩
        true 10).platter.map AudioSample.isPlaying = some true) := by
  have hmove : |(10 : ℚ)| > MOVEMENT_THRESHOLD := by
    rw [abs_of_pos (by norm_num : (0 : ℚ) < 10)]
    norm_num [MOVEMENT_THRESHOLD]
  have h := scratch_moving_touch
      ⟨1, 17 / 100, 5 / 2, false, some ⟨"", [1], 1, 1, 0, false, false, false, false, 0, false⟩⟩
      ⟨"", [1], 1, 1, 0, false, false, false, false, 0, false⟩
      10 rfl (by norm_num) hmove
  refine ⟨hmove, ?_, h.2⟩
  rw [h.1]
  have hu : |(5 / 2 : ℚ)| > 1 / 100000 := by
    rw [abs_of_pos (by norm_num : (0 : ℚ) < 5 / 2)]
    norm_num
  rw [if_pos hu]
  norm_num

/-- Claim C7: for a voice started in one-shot-then-loop mode, on the render
step at which the cursor leaves `[0, totalFrames)` before the one-shot has
completed, the voice sets `playedOnce`, enables looping, resets the cursor
to `0`, keeps playing, and the frame rendered on that very step samples
from frame `0` (integer base `0`, fractional offset `0`); the cursor then
advances by the rate from `0`. -/
theorem oneShot_wrap (table : ℕ → List ℚ) (rate : ℚ) (outputStreamChannels : ℕ)
    (effectiveVolume : ℚ) (s : AudioSample)
    (hplay : s.isPlaying = true) (hone : s.playOnceThenLoopSilently = true)
    (hnot : s.playedOnce = false)
    (hout : s.preciseCurrentFrame ≥ (s.totalFrames : ℚ) ∨ s.preciseCurrentFrame < 0) :
    (renderFrame table rate outputStreamChannels effectiveVolume s).1.playedOnce = true ∧
    (renderFrame table rate outputStreamChannels effectiveVolume s).1.loop = true ∧
    (renderFrame table rate outputStreamChannels effectiveVolume s).1.isPlaying = true ∧
    (renderFrame table rate outputStreamChannels effectiveVolume s).1.preciseCurrentFrame
        = rate ∧
    ((renderFrame table rate outputStreamChannels effectiveVolume s).2).map FrameOut.base
        = some 0 ∧
    ((renderFrame table rate outputStreamChannels effectiveVolume s).2).map FrameOut.frac
        = some 0 := by
  have hb : boundaryStep s
      = { s with playedOnce := true, preciseCurrentFrame := 0, loop := true } := by
    simp only [boundaryStep]
    rw [if_pos hout, if_pos ⟨by simp [hone], by simp [hnot]⟩]
  simp only [renderFrame, hplay, hb]
  norm_num

/-- Witness for C7: a playing one-shot voice over 2 frames with cursor `5`
(past the end), rate `1/2`: the step flips the flags, renders base `0`
offset `0`, and leaves the cursor at `1/2`. -/
theorem oneShot_wrap_witness :
    ((5 : ℚ) ≥ (((2 : ℤ) : ℚ)) ∨ (5 : ℚ) < 0) ∧
    ((renderFrame (fun _ => List.replicate NUM_TAPS (1 / 16)) (1 / 2) 1 1
        ⟨"", [1, 2], 2, 1, 0, true, false, true, false, 5, false⟩).1.playedOnce = true ∧
      (renderFrame (fun _ => List.replicate NUM_TAPS (1 / 16)) (1 / 2) 1 1
        ⟨"", [1, 2], 2, 1, 0, true, false, true, false, 5, false⟩).1.loop = true ∧
      (renderFrame (fun _ => List.replicate NUM_TAPS (1 / 16)) (1 / 2) 1 1
        ⟨"", [1, 2], 2, 1, 0, true, false, true, false, 5, false⟩).1.isPlaying = true ∧
      (renderFrame (fun _ => List.replicate NUM_TAPS (1 / 16)) (1 / 2) 1 1
        ⟨"", [1, 2], 2, 1, 0, true, false, true, false, 5, false⟩).1.preciseCurrentFrame
          = 1 / 2 ∧
      ((renderFrame (fun _ => List.replicate NUM_TAPS (1 / 16)) (1 / 2) 1 1
        ⟨"", [1, 2], 2, 1, 0, true, false, true, false, 5, false⟩).2).map FrameOut.base
          = some 0 ∧
      ((renderFrame (fun _ => List.replicate NUM_TAPS (1 / 16)) (1 / 2) 1 1
        ⟨"", [1, 2], 2, 1, 0, true, false, true, false, 5, false⟩).2).map FrameOut.frac
          = some 0) :=
  ⟨Or.inl (by norm_num),
   oneShot_wrap (fun _ => List.replicate NUM_TAPS (1 / 16)) (1 / 2) 1 1
     ⟨"", [1, 2], 2, 1, 0, true, false, true, false, 5, false⟩
     rfl rfl rfl (Or.inl (by norm_num))⟩

/-- Claim C10: a scratch-update call made while the platter voice is
missing (`none`) or has an empty buffer (`totalFrames = 0`) leaves the
shared target rate, the sensitivity, the unity-rate reference, the voice's
`isPlaying` flag and its cursor unchanged, sets `useEngineRateForPlayback`
to `false` on the voice when one exists, and updates only the finger-down
flag to the call's touch argument. -/
theorem scratch_unloaded_noop (e : AudioEngineState) (isActiveTouch : Bool) (delta : ℚ)
    (h : e.platter = none ∨ ∃ p, e.platter = some p ∧ p.totalFrames = 0) :
    (scratchPlatterActiveInternal e isActiveTouch delta).platterTargetPlaybackRate
        = e.platterTargetPlaybackRate ∧
    (scratchPlatterActiveInternal e isActiveTouch delta).scratchSensitivity
        = e.scratchSensitivity ∧
    (scratchPlatterActiveInternal e isActiveTouch delta).degreesPerFrameForUnityRate
        = e.degreesPerFrameForUnityRate ∧
    (scratchPlatterActiveInternal e isActiveTouch delta).isFingerDownOnPlatter
        = isActiveTouch ∧
    (scratchPlatterActiveInternal e isActiveTouch delta).platter.map AudioSample.isPlaying
        = e.platter.map AudioSample.isPlaying ∧
    (scratchPlatterActiveInternal e isActiveTouch delta).platter.map
        AudioSample.preciseCurrentFrame = e.platter.map AudioSample.preciseCurrentFrame ∧
    (scratchPlatterActiveInternal e isActiveTouch delta).platter.map
        AudioSample.useEngineRateForPlayback = e.platter.map (fun _ => false) := by
  rcases h with hnone | ⟨p, hp, hz⟩
  · simp [scratchPlatterActiveInternal, hnone]
  · simp [scratchPlatterActiveInternal, hp, hz]

/-- Witness for C10: a playing voice whose buffer was emptied
(`totalFrames = 0`): the update with touch `true` flips only the finger
flag, clears the voice's external-rate flag, and leaves rate `2` and the
playing state untouched. -/
theorem scratch_unloaded_noop_witness :
    (scratchPlatterActiveInternal
        ⟨2, 3, 4, false, some ⟨"x", [], 0, 0, 0, true, false, false, false, 7, true⟩⟩
        true 5).platterTargetPlaybackRate = 2 ∧
    (scratchPlatterActiveInternal
        ⟨2, 3, 4, false, some ⟨"x", [], 0, 0, 0, true, false, false, false, 7, true⟩⟩
        true 5).isFingerDownOnPlatter = true ∧
    (scratchPlatterActiveInternal
        ⟨2, 3, 4, false, some ⟨"x", [], 0, 0, 0, true, false, false, false, 7, true⟩⟩
        true 5).platter.map AudioSample.isPlaying = some true ∧
    (scratchPlatterActiveInternal
        ⟨2, 3, 4, false, some ⟨"x", [], 0, 0, 0, true, false, false, false, 7, true⟩⟩
        true 5).platter.map AudioSample.useEngineRateForPlayback = some false := by
  have h := scratch_unloaded_noop
      ⟨2, 3, 4, false, some ⟨"x", [], 0, 0, 0, true, false, false, false, 7, true⟩⟩
      true 5
      (Or.inr ⟨⟨"x", [], 0, 0, 0, true, false, false, false, 7, true⟩, rfl, rfl⟩)
  refine ⟨h.1, h.2.2.2.1, ?_, ?_⟩
  · rw [h.2.2.2.2.1]
    rfl
  · rw [h.2.2.2.2.2.2]
    rfl

/-- Success of an attempt equals presence of a decode result. -/
theorem attemptOk_eq_isSome (oracle : DecoderOracle) (path : String) :
    attemptOk oracle path = (decodeResult oracle path).isSome := by
  simp only [attemptOk, decodeResult]
  by_cases ho : oracle.openAsset path = true
  · by_cases hw : hasExtension path ".wav" = true
    · simp [ho, hw]
    · by_cases hm : hasExtension path ".mp3" = true
      · simp [ho, hw, hm]
      · simp [ho, hw, hm]
  · simp [ho]

/-- A successful attempt implies the path carries a known extension. -/
theorem attemptOk_ext (oracle : DecoderOracle) (path : String)
    (h : attemptOk oracle path = true) :
    hasExtension path ".wav" = true ∨ hasExtension path ".mp3" = true := by
  by_contra hc
  push_neg at hc
  simp only [attemptOk, hc.1, hc.2] at h
  by_cases ho : oracle.openAsset path = true <;> simp [ho] at h

/-- `tryLoadPath` in closed form: the updated state is the clear-then-fill
of the decode result, and the success flag is `attemptOk`. -/
theorem tryLoadPath_eq (oracle : DecoderOracle) (s : AudioSample) (path : String) :
    tryLoadPath oracle s path =
      ((match decodeResult oracle path with
        | some d => { s with audioData := d.audioData, totalFrames := d.totalFrames, channels := d.channels, sampleRate := d.sampleRate }
        | none => { s with audioData := [], totalFrames := 0, channels := 0, sampleRate := 0 }),
       attemptOk oracle path) := by
  simp only [tryLoadPath, decodeResult, attemptOk]
  by_cases ho : oracle.openAsset path = true
  · by_cases hw : hasExtension path ".wav" = true
    · cases hwd : oracle.wavDecode path <;> simp [ho, hw, hwd]
    · by_cases hm : hasExtension path ".mp3" = true
      · cases hmd : oracle.mp3Decode path <;> simp [ho, hw, hm, hmd]
      · simp [ho, hw, hm]
  · simp [ho]

/-- A failed attempt has no decode result. -/
theorem attemptOk_false_none (oracle : DecoderOracle) (path : String)
    (h : attemptOk oracle path = false) : decodeResult oracle path = none := by
  rw [attemptOk_eq_isSome] at h
  exact Option.not_isSome_iff_eq_none.mp (by simp [h])

/-- Claim C8: `load` resolves, in order, the literal supplied path, then
the path with `".mp3"` appended, then with `".wav"` appended, accepts the
first attempt that decodes successfully (`resolvedPath`, the spec's
description), records that resolved path as the voice's file path, and
fills the voice with that attempt's decoded data. -/
theorem load_resolution (oracle : DecoderOracle) (s : AudioSample) (basePath v : String)
    (hres : resolvedPath oracle basePath = some v) :
    (load oracle s basePath).filePath = v ∧
    (decodeResult oracle v).map DecodedData.audioData = some (load oracle s basePath).audioData ∧
    (decodeResult oracle v).map DecodedData.totalFrames
      = some (load oracle s basePath).totalFrames := by
  unfold resolvedPath at hres
  simp only [load, tryLoadPath_eq]
  by_cases h1 : attemptOk oracle basePath = true
  · rw [if_pos h1] at hres
    have hv : basePath = v := by injection hres
    subst hv
    obtain ⟨d, hd⟩ := Option.isSome_iff_exists.mp ((attemptOk_eq_isSome oracle basePath) ▸ h1)
    rw [if_pos (attemptOk_ext oracle basePath h1), hd]
    simp [h1, hd]
  · rw [if_neg h1] at hres
    simp only [Bool.not_eq_true] at h1
    have hn1 := attemptOk_false_none oracle basePath h1
    by_cases h2 : attemptOk oracle (basePath ++ ".mp3") = true
    · rw [if_pos h2] at hres
      have hv : basePath ++ ".mp3" = v := by injection hres
      subst hv
      obtain ⟨d, hd⟩ :=
        Option.isSome_iff_exists.mp ((attemptOk_eq_isSome oracle (basePath ++ ".mp3")) ▸ h2)
      rw [hd]
      by_cases hgate : (hasExtension basePath ".wav" = true ∨ hasExtension basePath ".mp3" = true)
      · rw [if_pos hgate, hn1]
        simp [h1, h2, hd]
      · rw [if_neg hgate]
        simp [h1, h2, hd]
    · rw [if_neg h2] at hres
      simp only [Bool.not_eq_true] at h2
      have hn2 := attemptOk_false_none oracle (basePath ++ ".mp3") h2
      by_cases h3 : attemptOk oracle (basePath ++ ".wav") = true
      · rw [if_pos h3] at hres
        have hv : basePath ++ ".wav" = v := by injection hres
        subst hv
        obtain ⟨d, hd⟩ :=
          Option.isSome_iff_exists.mp ((attemptOk_eq_isSome oracle (basePath ++ ".wav")) ▸ h3)
        rw [hd, hn2]
        by_cases hgate : (hasExtension basePath ".wav" = true ∨ hasExtension basePath ".mp3" = true)
        · rw [if_pos hgate, hn1]
          simp [h1, h2, h3, hd]
        · rw [if_neg hgate]
          simp [h1, h2, h3, hd]
      · rw [if_neg h3] at hres
        exact absurd hres (by simp)

/-- Witness for C8, the spec's own example: loading base `"sounds/x"` when
only `"sounds/x.mp3"` opens and decodes succeeds and records the resolved
path `"sounds/x.mp3"`. -/
theorem load_resolution_witness :
    (resolvedPath
        ⟨fun p => p == "sounds/x.mp3", fun _ => none,
         fun p => if p == "sounds/x.mp3" then some ⟨[1], 1, 1, 44100⟩ else none⟩
        "sounds/x" = some "sounds/x.mp3") ∧
    (load
        ⟨fun p => p == "sounds/x.mp3", fun _ => none,
         fun p => if p == "sounds/x.mp3" then some ⟨[1], 1, 1, 44100⟩ else none⟩
        ⟨"old", [5], 7, 2, 3, true, true, true, true, 9, true⟩
        "sounds/x").filePath = "sounds/x.mp3" := by
  have hres : resolvedPath
      ⟨fun p => p == "sounds/x.mp3", fun _ => none,
       fun p => if p == "sounds/x.mp3" then some ⟨[1], 1, 1, 44100⟩ else none⟩
      "sounds/x" = some "sounds/x.mp3" := by decide
  exact ⟨hres,
    (load_resolution
      ⟨fun p => p == "sounds/x.mp3", fun _ => none,
       fun p => if p == "sounds/x.mp3" then some ⟨[1], 1, 1, 44100⟩ else none⟩
      ⟨"old", [5], 7, 2, 3, true, true, true, true, 9, true⟩
      "sounds/x" "sounds/x.mp3" hres).1⟩

/-- Claim C9: when all three path variants fail to decode, `load` leaves
the voice silent — empty audio data, `totalFrames = 0`, channels and
sample rate cleared — resets the playback state (cursor `0`, not playing,
loop / one-shot / external-rate flags cleared), and keeps the base path as
the recorded file path; the failure is observable to callers as
`totalFrames = 0` (the engine's own callers test `totalFrames > 0`), and
the embedding is a total function (nothing is thrown). -/
theorem load_failure_clears (oracle : DecoderOracle) (s : AudioSample) (basePath : String)
    (h1 : attemptOk oracle basePath = false)
    (h2 : attemptOk oracle (basePath ++ ".mp3") = false)
    (h3 : attemptOk oracle (basePath ++ ".wav") = false) :
    (load oracle s basePath).filePath = basePath ∧
    (load oracle s basePath).audioData = [] ∧
    (load oracle s basePath).totalFrames = 0 ∧
    (load oracle s basePath).channels = 0 ∧
    (load oracle s basePath).sampleRate = 0 ∧
    (load oracle s basePath).preciseCurrentFrame = 0 ∧
    (load oracle s basePath).isPlaying = false ∧
    (load oracle s basePath).loop = false ∧
    (load oracle s basePath).playOnceThenLoopSilently = false ∧
    (load oracle s basePath).playedOnce = false ∧
    (load oracle s basePath).useEngineRateForPlayback = false := by
  have hn1 := attemptOk_false_none oracle basePath h1
  have hn2 := attemptOk_false_none oracle (basePath ++ ".mp3") h2
  have hn3 := attemptOk_false_none oracle (basePath ++ ".wav") h3
  simp only [load, tryLoadPath_eq, hn1, hn2, hn3]
  by_cases hgate : (hasExtension basePath ".wav" = true ∨ hasExtension basePath ".mp3" = true)
  · simp [hgate, h1, h2, h3]
  · simp [hgate, h1, h2, h3]

/-- Witness for C9: an oracle on which no asset opens, base `"missing"`,
starting from a voice full of stale state. -/
theorem load_failure_clears_witness :
    (attemptOk ⟨fun _ => false, fun _ => none, fun _ => none⟩ "missing" = false) ∧
    (load ⟨fun _ => false, fun _ => none, fun _ => none⟩
        ⟨"old", [5], 7, 2, 3, true, true, true, true, 9, true⟩ "missing").filePath = "missing" ∧
    (load ⟨fun _ => false, fun _ => none, fun _ => none⟩
        ⟨"old", [5], 7, 2, 3, true, true, true, true, 9, true⟩ "missing").audioData = [] ∧
    (load ⟨fun _ => false, fun _ => none, fun _ => none⟩
        ⟨"old", [5], 7, 2, 3, true, true, true, true, 9, true⟩ "missing").totalFrames = 0 ∧
    (load ⟨fun _ => false, fun _ => none, fun _ => none⟩
        ⟨"old", [5], 7, 2, 3, true, true, true, true, 9, true⟩ "missing").isPlaying = false ∧
    (load ⟨fun _ => false, fun _ => none, fun _ => none⟩
        ⟨"old", [5], 7, 2, 3, true, true, true, true, 9, true⟩ "missing").preciseCurrentFrame
      = 0 := by
  have h := load_failure_clears ⟨fun _ => false, fun _ => none, fun _ => none⟩
      ⟨"old", [5], 7, 2, 3, true, true, true, true, 9, true⟩ "missing"
      rfl rfl rfl
  exact ⟨rfl, h.1, h.2.1, h.2.2.1, h.2.2.2.2.2.2.1, h.2.2.2.2.2.1⟩
